import Mathlib

/-!
# Debugger UI panels: table models, process selection and debug-server settings

A shallow embedding of the table models of `ui/attachprocess.h`,
`src/ui/breakpointswidget.h`, `src/ui/registerwidget.h` and of
`DebugServerSettingsDialogDialog::apply` of `ui/debugserversetting.cpp`.

Conventions.
* `std::string` is `String`; `uint32_t` / `uint64_t` values are `Nat`s, `int` is `Int`.
  The only integer conversion in the embedded code, `(int)m_items.size()`, is `castInt`.
* `std::vector<T>` is `List T`.
* A C++ exception is the `Except.error` branch of the result.
* Qt and host-application objects (`QModelIndex`, the proxy's `mapToSource`, the controller,
  the metadata store) are modelled by the data the embedded code reads and writes.
-/

namespace Debugger

/-! ## Machine integers -/

/-- Conversion of an unsigned size to a 32-bit `int`: reduction modulo `2^32` into
`[-2^31, 2^31)`. -/
def castInt (n : Nat) : Int :=
  if n % 2 ^ 32 < 2 ^ 31 then ((n % 2 ^ 32 : Nat) : Int) else ((n % 2 ^ 32 : Nat) : Int) - 2 ^ 32

/-! ## Qt model indices -/

/-- A `QModelIndex`: row, column and whether it refers to a model. -/
structure QModelIndex where
  row : Int
  column : Int
  hasModel : Bool
  deriving DecidableEq, Repr

/-- The index `QModelIndex()` built by the default constructor. -/
def QModelIndex.invalid : QModelIndex := ⟨-1, -1, false⟩

/-- Qt: `isValid()` is `(r >= 0) && (c >= 0) && (m != nullptr)`. -/
def QModelIndex.isValid (i : QModelIndex) : Bool :=
  decide (0 ≤ i.row) && decide (0 ≤ i.column) && i.hasModel

/-! ## Row types -/

/-- Class `ProcessItem` of `ui/attachprocess.h`: private fields `m_pid` (`uint32_t`) and
`m_processName`. -/
structure ProcessItem where
  m_pid : Nat
  m_processName : String
  deriving DecidableEq, Repr

/-- Accessor `uint32_t pid() const`. -/
def ProcessItem.pid (a : ProcessItem) : Nat := a.m_pid

/-- Accessor `std::string processName() const`. -/
def ProcessItem.processName (a : ProcessItem) : String := a.m_processName

/-- Modelled from the spec: `ModuleNameAndOffset` is declared in `../debuggerstate.h`, which is
not among the sources; it is the "location" field of a breakpoint row, a module name and an
offset into that module. -/
structure ModuleNameAndOffset where
  module : String
  offset : Nat
  deriving DecidableEq, Repr

/-- Class `BreakpointItem` of `src/ui/breakpointswidget.h`: private fields `m_enabled`,
`m_location` and `m_address` (`uint64_t`). -/
structure BreakpointItem where
  m_enabled : Bool
  m_location : ModuleNameAndOffset
  m_address : Nat
  deriving DecidableEq, Repr

/-- Class `DebugRegisterItem` of `src/ui/registerwidget.h`: private fields `m_name`,
`m_value` (`uint64_t`), `m_updated` and `m_hint`. -/
structure DebugRegisterItem where
  m_name : String
  m_value : Nat
  m_updated : Bool
  m_hint : String
  deriving DecidableEq, Repr

/-- Accessor `std::string name() const`. -/
def DebugRegisterItem.name (a : DebugRegisterItem) : String := a.m_name

/-- Accessor `uint64_t value() const`. -/
def DebugRegisterItem.value (a : DebugRegisterItem) : Nat := a.m_value

/-- Class `ProcessListModel`: the stored row vector `m_items`. -/
structure ProcessListModel where
  m_items : List ProcessItem
  deriving DecidableEq, Repr

/-- Enum `ProcessListModel::ColumnHeaders`. -/
inductive ProcessListModel.ColumnHeaders where
  | PidColumn
  | ProcessNameColumn
  deriving DecidableEq, Repr, Fintype

/-- The integer value of an enumerator of `ProcessListModel::ColumnHeaders`. -/
def ProcessListModel.ColumnHeaders.toInt : ProcessListModel.ColumnHeaders → Int
  | .PidColumn => 0
  | .ProcessNameColumn => 1

/-- `ProcessListModel::rowCount`: `(void)parent; return (int)m_items.size();`. -/
def ProcessListModel.rowCount (m : ProcessListModel) (_parent : QModelIndex) : Int :=
  castInt m.m_items.length

/-- `ProcessListModel::columnCount`: `(void)parent; return 2;`. -/
def ProcessListModel.columnCount (_m : ProcessListModel) (_parent : QModelIndex) : Int :=
  2

/-! ## The breakpoint and register list models -/

/-- Class `DebugBreakpointsListModel`: the stored row vector `m_items` (the host handles
`m_owner`, `m_data`, `m_view` take no part in the embedded functions). -/
structure DebugBreakpointsListModel where
  m_items : List BreakpointItem
  deriving DecidableEq, Repr

/-- Enum `DebugBreakpointsListModel::ColumnHeaders`. -/
inductive DebugBreakpointsListModel.ColumnHeaders where
  | EnabledColumn
  | LocationColumn
  | AddressColumn
  deriving DecidableEq, Repr, Fintype

/-- The integer value of an enumerator of `DebugBreakpointsListModel::ColumnHeaders`. -/
def DebugBreakpointsListModel.ColumnHeaders.toInt : DebugBreakpointsListModel.ColumnHeaders → Int
  | .EnabledColumn => 0
  | .LocationColumn => 1
  | .AddressColumn => 2

/-- `DebugBreakpointsListModel::rowCount`: `(void) parent; return (int)m_items.size();`. -/
def DebugBreakpointsListModel.rowCount (m : DebugBreakpointsListModel) (_parent : QModelIndex) :
    Int :=
  castInt m.m_items.length

/-- `DebugBreakpointsListModel::columnCount`: `(void) parent; return 3;`. -/
def DebugBreakpointsListModel.columnCount (_m : DebugBreakpointsListModel)
    (_parent : QModelIndex) : Int :=
  3

/-- Class `DebugRegisterListModel`: the stored row vector `m_items`. -/
structure DebugRegisterListModel where
  m_items : List DebugRegisterItem
  deriving DecidableEq, Repr

/-- Enum `DebugRegisterListModel::ColumnHeaders`. -/
inductive DebugRegisterListModel.ColumnHeaders where
  | NameColumn
  | ValueColumn
  | HintColumn
  deriving DecidableEq, Repr, Fintype

/-- The integer value of an enumerator of `DebugRegisterListModel::ColumnHeaders`. -/
def DebugRegisterListModel.ColumnHeaders.toInt : DebugRegisterListModel.ColumnHeaders → Int
  | .NameColumn => 0
  | .ValueColumn => 1
  | .HintColumn => 2

/-- `DebugRegisterListModel::rowCount`: `(void) parent; return (int)m_items.size();`. -/
def DebugRegisterListModel.rowCount (m : DebugRegisterListModel) (_parent : QModelIndex) : Int :=
  castInt m.m_items.length

/-- `DebugRegisterListModel::columnCount`: `(void) parent; return 3;`. -/
def DebugRegisterListModel.columnCount (_m : DebugRegisterListModel) (_parent : QModelIndex) :
    Int :=
  3

/-! ## Resolving the selected process -/

/-- `ProcessListWidget::GetSelectedPid`.  The widget's collaborators are passed in:
`selectedIndexes` is `selectionModel()->selectedIndexes()`, `mapToSource` is the proxy's
`m_filter->mapToSource`, and `getRow` is `m_model->getRow`, whose exception, if any, leaves
the function uncaught.

    if (sel.empty() || !sel[0].isValid()) return 0;
    auto sourceIndex = m_filter->mapToSource(sel[0]);
    if (!sourceIndex.isValid()) return 0;
    auto processItem = m_model->getRow(sourceIndex.row());
    return processItem.pid(); -/
def ProcessListWidget.GetSelectedPid {ε : Type} (selectedIndexes : List QModelIndex)
    (mapToSource : QModelIndex → QModelIndex) (getRow : Int → Except ε ProcessItem) :
    Except ε Nat :=
  match selectedIndexes with
  | [] => .ok 0
  | first :: _ =>
    if !first.isValid then .ok 0
    else
      let sourceIndex := mapToSource first
      if !sourceIndex.isValid then .ok 0
      else
        match getRow sourceIndex.row with
        | .error e => .error e
        | .ok processItem => .ok processItem.pid

/-! ## The debug-server settings dialog -/

/-- The exceptions `std::stoull` throws; both derive from `std::exception`. -/
inductive StdException where
  | invalid_argument
  | out_of_range
  deriving DecidableEq, Repr

deriving instance DecidableEq for Except

/-- C `isspace` in the "C" locale: space, `\t`, `\n`, `\v`, `\f`, `\r`. -/
def isspace (c : Char) : Bool :=
  c = ' ' || c = '\t' || c = '\n' || c = Char.ofNat 11 || c = Char.ofNat 12 || c = '\r'

/-- Drop the leading white space of a text, as `strtoull` does first. -/
def skipSpace : List Char → List Char
  | [] => []
  | c :: cs => if isspace c then skipSpace cs else c :: cs

/-- The value of a decimal digit, `none` for any other character. -/
def digitValue (c : Char) : Option Nat :=
  if '0' ≤ c ∧ c ≤ '9' then some (c.toNat - '0'.toNat) else none

/-- Read the longest run of decimal digits at the head of a text: the value read so far and
the number of digits consumed. -/
def readDigits : List Char → Nat → Nat → Nat × Nat
  | [], acc, n => (acc, n)
  | c :: cs, acc, n =>
    match digitValue c with
    | some d => readDigits cs (10 * acc + d) (n + 1)
    | none => (acc, n)

/-- Split an optional sign off the head of a text: whether it is `-`, and the rest. -/
def readSign : List Char → Bool × List Char
  | '-' :: r => (true, r)
  | '+' :: r => (false, r)
  | r => (false, r)

/-- The standard `std::stoull(str)` (base 10, no position out-parameter), which is
`strtoull` with its failures turned into exceptions: leading white space is skipped, one
optional sign is read, then the longest run of decimal digits; what follows is ignored.
Without a digit it throws `invalid_argument`; a magnitude above `2^64 - 1` throws
`out_of_range`; a leading `-` negates the value modulo `2^64`. -/
def stoull (str : String) : Except StdException Nat :=
  let signed := readSign (skipSpace str.data)
  let digits := readDigits signed.2 0 0
  if digits.2 = 0 then .error .invalid_argument
  else if 2 ^ 64 ≤ digits.1 then .error .out_of_range
  else .ok (if signed.1 then (2 ^ 64 - digits.1) % 2 ^ 64 else digits.1)

/-- A `Metadata` value as built by the constructors the dialog uses: `Metadata(std::string)`
and `Metadata(uint64_t)`. -/
inductive Metadata where
  | string (value : String)
  | unsignedInteger (value : Nat)
  deriving DecidableEq, Repr

/-- What `QDialog::accept()` / `reject()` record. -/
inductive DialogCode where
  | Rejected
  | Accepted
  deriving DecidableEq, Repr

/-- The objects `DebugServerSettingsDialogDialog::apply` writes: the controller's remote host and
port (as passed to `SetRemoteHost`, `SetRemotePort`), the adapter properties (written by
`SetAdapterProperty`), the metadata of the controller's data (written by
`GetData()->StoreMetadata`), and the dialog's result code, `none` while it is open. -/
structure DebugServerSettingsDialog where
  remoteHost : String
  remotePort : Nat
  adapterProperty : String → Option Metadata
  storedMetadata : String → Option Metadata
  result : Option DialogCode

/-- Write `data` under `key` in a keyed store, leaving the other keys as they are. -/
def storeAt (store : String → Option Metadata) (key : String) (data : Metadata) :
    String → Option Metadata :=
  fun k => if k = key then some data else store k

/-- `m_controller->SetRemoteHost(host)`. -/
def DebugServerSettingsDialog.SetRemoteHost (s : DebugServerSettingsDialog) (host : String) :
    DebugServerSettingsDialog :=
  { s with remoteHost := host }

/-- `m_controller->SetRemotePort(port)`. -/
def DebugServerSettingsDialog.SetRemotePort (s : DebugServerSettingsDialog) (port : Nat) :
    DebugServerSettingsDialog :=
  { s with remotePort := port }

/-- `m_controller->SetAdapterProperty(name, data)`. -/
def DebugServerSettingsDialog.SetAdapterProperty (s : DebugServerSettingsDialog) (name : String)
    (data : Metadata) : DebugServerSettingsDialog :=
  { s with adapterProperty := storeAt s.adapterProperty name data }

/-- `m_controller->GetData()->StoreMetadata(key, data)`. -/
def DebugServerSettingsDialog.StoreMetadata (s : DebugServerSettingsDialog) (key : String)
    (data : Metadata) : DebugServerSettingsDialog :=
  { s with storedMetadata := storeAt s.storedMetadata key data }

/-- `QDialog::accept()`. -/
def DebugServerSettingsDialog.accept (s : DebugServerSettingsDialog) : DebugServerSettingsDialog :=
  { s with result := some DialogCode.Accepted }

/-- The `try { port = stoull(portString); } catch (const std::exception&) { port = 31337; }`
block of `DebugServerSettingsDialogDialog::apply`. -/
def parsePort (portString : String) : Nat :=
  match stoull portString with
  | .ok port => port
  | .error _ => 31337

/-- `DebugServerSettingsDialogDialog::apply`; `addressText`, `portText`, `platformText` are the
texts of `m_addressEntry`, `m_portEntry` and the current text of `m_platformEntry`. -/
def DebugServerSettingsDialog.apply (s : DebugServerSettingsDialog)
    (addressText portText platformText : String) : DebugServerSettingsDialog :=
  let host := addressText
  let s := s.SetRemoteHost host
  let s := s.StoreMetadata "debugger.remote_host" (Metadata.string host)
  let portString := portText
  let port := parsePort portString
  let s := s.SetRemotePort port
  let s := s.StoreMetadata "debugger.remote_port" (Metadata.unsignedInteger port)
  let platform := platformText
  let s :=
    if platform ≠ "" then
      let data := Metadata.string platform
      let s := s.SetAdapterProperty "current_platform" data
      s.StoreMetadata "debugger.platform" data
    else s
  s.accept

/-! ## Parts modelled from the spec

The bodies of the row operators, of `ProcessListModel::getRow` and `ProcessListModel::sort`,
of `ProcessListFilterProxyModel::filterAcceptsRow` and of `ProcessListWidget::setFilter` are
declared in the headers but defined in files that are not among the sources.  They are modelled
from the specification, as is the row count of the filter proxy. -/

/-- Lexical order of two texts, character by character (`std::string::operator<`). -/
def textLt (a b : String) : Bool := decide (a.data < b.data)

/-- Whether `needle` occurs in `hay` as a contiguous run of characters. -/
def containsSubstring (needle : List Char) : List Char → Bool
  | [] => needle.isPrefixOf []
  | c :: cs => needle.isPrefixOf (c :: cs) || containsSubstring needle cs

/-- The error of the models' row and cell accessors. -/
inductive ModelError where
  | OutOfRange
  deriving DecidableEq, Repr

/-- Modelled from the spec: the body of `ProcessListModel::getRow` is missing; "out-of-range
row/column access: reported as a boundary error to the caller; never silently clamped". -/
def ProcessListModel.getRow (m : ProcessListModel) (row : Int) : Except ModelError ProcessItem :=
  if 0 ≤ row ∧ row < m.rowCount QModelIndex.invalid then
    match m.m_items.get? row.toNat with
    | some item => .ok item
    | none => .error .OutOfRange
  else .error .OutOfRange

/-- Modelled from the spec: the body of `ProcessListModel::data` is missing; the text a cell
shows, "literal text" for the two columns of a process row (the pid in decimal). -/
def ProcessListModel.cellText (item : ProcessItem) : ProcessListModel.ColumnHeaders → String
  | .PidColumn => toString item.pid
  | .ProcessNameColumn => item.processName

/-- Modelled from the spec: the filter state of class `ProcessListFilterProxyModel`, which the
class keeps in its Qt base and no source at hand writes; "current filter predicate (e.g.,
substring match on a chosen column)". -/
structure ProcessListFilterProxyModel where
  filterText : String
  filterColumn : ProcessListModel.ColumnHeaders
  deriving DecidableEq, Repr

/-- Modelled from the spec: whether a row matches the filter, "substring match on a chosen
column"; it is the test `filterAcceptsRow` applies to the row it is asked about. -/
def ProcessListFilterProxyModel.accepts (f : ProcessListFilterProxyModel) (item : ProcessItem) :
    Bool :=
  containsSubstring f.filterText.data (ProcessListModel.cellText item f.filterColumn).data

/-- Modelled from the spec: the body of `ProcessListFilterProxyModel::filterAcceptsRow` is
missing; a source row is accepted when it matches the filter. -/
def ProcessListFilterProxyModel.filterAcceptsRow (f : ProcessListFilterProxyModel)
    (source : ProcessListModel) (sourceRow : Int) (_sourceParent : QModelIndex) : Bool :=
  if 0 ≤ sourceRow then
    match source.m_items.get? sourceRow.toNat with
    | some item => f.accepts item
    | none => false
  else false

/-- Modelled from the spec: the visible rows, recomputed "by re-scanning the full snapshot":
the source rows in order, those `filterAcceptsRow` rejects left out. -/
def ProcessListFilterProxyModel.visibleRows (f : ProcessListFilterProxyModel)
    (source : ProcessListModel) : List ProcessItem :=
  (List.range source.m_items.length).filterMap fun (i : Nat) =>
    if f.filterAcceptsRow source (Int.ofNat i) QModelIndex.invalid then source.m_items.get? i
    else none

/-- Modelled from the spec: the body of `ProcessListWidget::setFilter` is missing;
`setFilter` "replaces the active filter" and leaves the rest of the view state. -/
def ProcessListFilterProxyModel.setFilter (f : ProcessListFilterProxyModel) (filter : String) :
    ProcessListFilterProxyModel :=
  { f with filterText := filter }

/-- Modelled from the spec: `rowCount()` of the filter proxy, the model the table view is
bound to (the class takes it from its Qt base, no source at hand defines it); it "reflects the
visible (filtered) row count". -/
def ProcessListFilterProxyModel.rowCount (f : ProcessListFilterProxyModel)
    (source : ProcessListModel) (_parent : QModelIndex) : Int :=
  ((f.visibleRows source).length : Int)

/-- Qt: `Qt::SortOrder`. -/
inductive SortOrder where
  | AscendingOrder
  | DescendingOrder
  deriving DecidableEq, Repr

/-- Insert a row into a sorted list before the first row it is not greater than. -/
def insertSorted {α : Type} (le : α → α → Bool) (a : α) : List α → List α
  | [] => [a]
  | b :: l => if le a b then a :: b :: l else b :: insertSorted le a l

/-- Stable sort by insertion, from the back: rows that compare equal keep their order.  It is
the "stable sort" the specification asks of `sort`. -/
def stableSort {α : Type} (le : α → α → Bool) : List α → List α
  | [] => []
  | a :: l => insertSorted le a (stableSort le l)

/-- Modelled from the spec: the comparator of a column of the process list; pids compare as
unsigned integers, names as text. -/
def ProcessListModel.compareColumn (col : ProcessListModel.ColumnHeaders) (a b : ProcessItem) :
    Ordering :=
  match col with
  | .PidColumn => compare a.pid b.pid
  | .ProcessNameColumn =>
    if textLt a.processName b.processName then .lt
    else if textLt b.processName a.processName then .gt
    else .eq

/-- Modelled from the spec: "sorting falls back to secondary lexical order on the first column
when the primary comparator reports equality". -/
def ProcessListModel.compareRows (col : ProcessListModel.ColumnHeaders) (a b : ProcessItem) :
    Ordering :=
  match ProcessListModel.compareColumn col a b with
  | .eq =>
    let x := ProcessListModel.cellText a .PidColumn
    let y := ProcessListModel.cellText b .PidColumn
    if textLt x y then .lt else if textLt y x then .gt else .eq
  | o => o

/-- Modelled from the spec: whether row `a` may stand before row `b` in the given order. -/
def ProcessListModel.rowLe (col : ProcessListModel.ColumnHeaders) (order : SortOrder)
    (a b : ProcessItem) : Bool :=
  match order with
  | .AscendingOrder => ProcessListModel.compareRows col a b != .gt
  | .DescendingOrder => ProcessListModel.compareRows col b a != .gt

/-- Modelled from the spec: the body of `ProcessListModel::sort` is missing; "stable sort
(ties preserve prior relative order) using the column's comparator". -/
def ProcessListModel.sort (m : ProcessListModel) (col : ProcessListModel.ColumnHeaders)
    (order : SortOrder) : ProcessListModel :=
  { m_items := stableSort (ProcessListModel.rowLe col order) m.m_items }

/-! ## Example data -/

/-- The snapshot of the specification's example: pids 10, 2, 30 named "a", "b", "c". -/
def exampleSnapshot : List ProcessItem :=
  [⟨10, "a"⟩, ⟨2, "b"⟩, ⟨30, "c"⟩]

/-- A proxy mapping for the examples: visible row `r` shows source row `r + 1`. -/
def shiftByOne (i : QModelIndex) : QModelIndex :=
  ⟨i.row + 1, i.column, i.hasModel⟩

/-- A proxy mapping for the examples: no visible index has a source index. -/
def mapToNothing (_i : QModelIndex) : QModelIndex :=
  QModelIndex.invalid

/-- A row accessor for the examples: source row 0 is process 10, every other row process 2. -/
def twoRows (row : Int) : Except ModelError ProcessItem :=
  if row = 0 then .ok ⟨10, "a"⟩ else .ok ⟨2, "b"⟩

/-- A row accessor for the examples: every access fails. -/
def noRows (_row : Int) : Except ModelError ProcessItem :=
  .error .OutOfRange

/-- Settings of a dialog just opened: host "localhost", port 31337, platform "linux" both as
adapter property and as stored metadata. -/
def openedDialog : DebugServerSettingsDialog where
  remoteHost := "localhost"
  remotePort := 31337
  adapterProperty := fun k => if k = "current_platform" then some (.string "linux") else none
  storedMetadata := fun k => if k = "debugger.platform" then some (.string "linux") else none
  result := none

/-! # Theorems

## Helper lemmas -/

theorem filterMap_get?_filter {α : Type} (p : α → Bool) (l : List α) :
    (List.range l.length).filterMap
        (fun i => match l.get? i with
          | some x => if p x then some x else none
          | none => none) = l.filter p := by
  induction l with
  | nil => rfl
  | cons a l ih =>
    rw [List.length_cons, List.range_succ_eq_map, List.filterMap_cons, List.filterMap_map]
    have htail : (List.range l.length).filterMap
        ((fun i => match (a :: l).get? i with
          | some x => if p x then some x else none
          | none => none) ∘ Nat.succ) = l.filter p := by
      simpa [Function.comp_def] using ih
    rw [htail]
    by_cases hp : p a = true
    · simp [hp]
    · simp [hp]

theorem visibleRows_eq_filter (f : ProcessListFilterProxyModel) (source : ProcessListModel) :
    f.visibleRows source = source.m_items.filter f.accepts := by
  unfold ProcessListFilterProxyModel.visibleRows
  rw [← filterMap_get?_filter f.accepts source.m_items]
  apply List.filterMap_congr
  intro i _
  have h0 : (0 : Int) ≤ Int.ofNat i := Int.ofNat_nonneg i
  have ht : (Int.ofNat i).toNat = i := rfl
  simp only [ProcessListFilterProxyModel.filterAcceptsRow, if_pos h0, ht]
  generalize source.m_items.get? i = g
  cases g with
  | none => simp
  | some x => by_cases hx : f.accepts x = true <;> simp [hx]

/-! ## Row and column counts -/

/-- C1: for every snapshot held by the process list model and every filter, after
`setFilter(F)` the `rowCount()` of the filter proxy the view shows is the number of rows of the
snapshot that match `F`, not the size of the stored row vector: on the example snapshot with
the filter "b" on the process name it is 1 while the stored vector has 3 rows. -/
theorem C1_rowCount_is_filtered_count :
    (∀ (f : ProcessListFilterProxyModel) (source : ProcessListModel) (filter : String)
        (parent : QModelIndex),
        (f.setFilter filter).rowCount source parent
          = ((source.m_items.countP (f.setFilter filter).accepts : Nat) : Int) ∧
        f.rowCount source parent = ((source.m_items.countP f.accepts : Nat) : Int) ∧
        f.rowCount source parent
          = (((List.range source.m_items.length).countP
              (fun i => f.filterAcceptsRow source (Int.ofNat i) QModelIndex.invalid) : Nat) :
              Int)) ∧
      ((ProcessListFilterProxyModel.mk "" .ProcessNameColumn).setFilter "b").rowCount
        (ProcessListModel.mk exampleSnapshot) QModelIndex.invalid = 1 ∧
      (ProcessListModel.mk exampleSnapshot).rowCount QModelIndex.invalid = 3 := by
  have hcount : ∀ (f : ProcessListFilterProxyModel) (source : ProcessListModel)
      (parent : QModelIndex),
      f.rowCount source parent = ((source.m_items.countP f.accepts : Nat) : Int) := by
    intro f source parent
    unfold ProcessListFilterProxyModel.rowCount
    rw [visibleRows_eq_filter, List.countP_eq_length_filter]
  refine ⟨fun f source filter parent => ⟨hcount _ source parent, hcount f source parent, ?_⟩,
    by decide, by decide⟩
  unfold ProcessListFilterProxyModel.rowCount ProcessListFilterProxyModel.visibleRows
  rw [List.length_filterMap_eq_countP]
  congr 1
  apply List.countP_congr
  intro i hi
  have hlt : i < source.m_items.length := List.mem_range.mp hi
  rw [List.get?_eq_get hlt]
  by_cases hacc : f.filterAcceptsRow source (Int.ofNat i) QModelIndex.invalid = true <;>
    simp [hacc]

/-- C2: `columnCount()` is 2 for `ProcessListModel`, 3 for `DebugBreakpointsListModel` and 3
for `DebugRegisterListModel`, whatever rows the model holds and whatever parent index is
passed; it is the number of enumerators of the model's `ColumnHeaders`, whose values are the
column numbers below it. -/
theorem C2_columnCount_fixed :
    (∀ (m : ProcessListModel) (parent : QModelIndex),
        m.columnCount parent = 2 ∧
        m.columnCount parent = (Fintype.card ProcessListModel.ColumnHeaders : Int) ∧
        ∀ c : ProcessListModel.ColumnHeaders, 0 ≤ c.toInt ∧ c.toInt < m.columnCount parent) ∧
      (∀ (m : DebugBreakpointsListModel) (parent : QModelIndex),
        m.columnCount parent = 3 ∧
        m.columnCount parent = (Fintype.card DebugBreakpointsListModel.ColumnHeaders : Int) ∧
        ∀ c : DebugBreakpointsListModel.ColumnHeaders,
          0 ≤ c.toInt ∧ c.toInt < m.columnCount parent) ∧
      (∀ (m : DebugRegisterListModel) (parent : QModelIndex),
        m.columnCount parent = 3 ∧
        m.columnCount parent = (Fintype.card DebugRegisterListModel.ColumnHeaders : Int) ∧
        ∀ c : DebugRegisterListModel.ColumnHeaders,
          0 ≤ c.toInt ∧ c.toInt < m.columnCount parent) := by
  refine ⟨fun m parent => ⟨rfl, ?_, ?_⟩, fun m parent => ⟨rfl, ?_, ?_⟩,
    fun m parent => ⟨rfl, ?_, ?_⟩⟩
  · simp [ProcessListModel.columnCount]; rfl
  · intro c; cases c <;> simp [ProcessListModel.columnCount, ProcessListModel.ColumnHeaders.toInt]
  · simp [DebugBreakpointsListModel.columnCount]; rfl
  · intro c; cases c <;> simp [DebugBreakpointsListModel.columnCount, DebugBreakpointsListModel.ColumnHeaders.toInt]
  · simp [DebugRegisterListModel.columnCount]; rfl
  · intro c; cases c <;> simp [DebugRegisterListModel.columnCount, DebugRegisterListModel.ColumnHeaders.toInt]

/-! ## The selected process -/

/-- C3: when the first selected index is valid and the proxy maps it to a valid source index,
`GetSelectedPid()` is the pid of `getRow(mapToSource(sel[0]).row())`: the row at the mapped
source row, whatever row the visible index itself numbers. -/
theorem C3_GetSelectedPid_uses_source_row {ε : Type} (first : QModelIndex)
    (rest : List QModelIndex) (mapToSource : QModelIndex → QModelIndex)
    (getRow : Int → Except ε ProcessItem) (hsel : first.isValid = true)
    (hsrc : (mapToSource first).isValid = true) :
    ProcessListWidget.GetSelectedPid (first :: rest) mapToSource getRow =
        (getRow (mapToSource first).row).map ProcessItem.pid ∧
      ∀ item : ProcessItem, getRow (mapToSource first).row = .ok item →
        ProcessListWidget.GetSelectedPid (first :: rest) mapToSource getRow = .ok item.pid := by
  have hmain : ProcessListWidget.GetSelectedPid (first :: rest) mapToSource getRow =
      (getRow (mapToSource first).row).map ProcessItem.pid := by
    simp only [ProcessListWidget.GetSelectedPid, hsel, hsrc]
    cases getRow (mapToSource first).row <;> rfl
  refine ⟨hmain, fun item hitem => ?_⟩
  rw [hmain, hitem]
  rfl

/-- Witness of C3: visible row 0 shows source row 1, and the pid returned is that of source
row 1 (pid 2), not of the row stored at position 0 (pid 10). -/
theorem C3_GetSelectedPid_uses_source_row_witness :
    ProcessListWidget.GetSelectedPid [(⟨0, 0, true⟩ : QModelIndex)] shiftByOne twoRows = .ok 2 :=
  (C3_GetSelectedPid_uses_source_row ⟨0, 0, true⟩ [] shiftByOne twoRows (by decide)
    (by decide)).2 ⟨2, "b"⟩ (by decide)

/-- C4, as stated, fails: for an empty selection, for an invalid first index and for a first
index without a valid source index, `GetSelectedPid()` returns the ordinary value 0, even with
a row accessor that raises an error on every row; 0 is also what it returns for a selected
process whose pid is 0. -/
theorem C4_GetSelectedPid_returns_zero :
    ProcessListWidget.GetSelectedPid [] shiftByOne noRows = .ok 0 ∧
      ProcessListWidget.GetSelectedPid [QModelIndex.invalid] shiftByOne noRows = .ok 0 ∧
      ProcessListWidget.GetSelectedPid [(⟨0, 0, true⟩ : QModelIndex)] mapToNothing noRows
        = .ok 0 ∧
      ProcessListWidget.GetSelectedPid [(⟨0, 0, true⟩ : QModelIndex)] shiftByOne
        (fun _ => (.ok ⟨0, "idle"⟩ : Except ModelError ProcessItem)) = .ok 0 := by
  decide

/-- C4, amended: resolving a selection that is empty, whose first index is invalid, or whose
mapped source index is invalid makes `GetSelectedPid()` return the ordinary value 0, not an
error; calling `getRow` with a row index outside `[0, rowCount())` yields an error, and that
error reaches the caller of `GetSelectedPid()` when the mapped source row is out of range. -/
theorem C4_boundary_results :
    (∀ (sel : List QModelIndex) (mapToSource : QModelIndex → QModelIndex)
        (getRow : Int → Except ModelError ProcessItem),
        (sel = [] ∨ ∃ first rest, sel = first :: rest ∧
          (first.isValid = false ∨ (mapToSource first).isValid = false)) →
        ProcessListWidget.GetSelectedPid sel mapToSource getRow = .ok 0) ∧
      (∀ (m : ProcessListModel) (row : Int),
        (row < 0 ∨ m.rowCount QModelIndex.invalid ≤ row) →
        m.getRow row = .error .OutOfRange) ∧
      (∀ (m : ProcessListModel) (first : QModelIndex) (rest : List QModelIndex)
        (mapToSource : QModelIndex → QModelIndex),
        first.isValid = true → (mapToSource first).isValid = true →
        m.rowCount QModelIndex.invalid ≤ (mapToSource first).row →
        ProcessListWidget.GetSelectedPid (first :: rest) mapToSource m.getRow
          = .error .OutOfRange) := by
  have hget : ∀ (m : ProcessListModel) (row : Int),
      (row < 0 ∨ m.rowCount QModelIndex.invalid ≤ row) → m.getRow row = .error .OutOfRange := by
    intro m row h
    unfold ProcessListModel.getRow
    rw [if_neg]
    rintro ⟨h0, h1⟩
    rcases h with h | h <;> omega
  refine ⟨?_, hget, ?_⟩
  · intro sel mapToSource getRow h
    rcases h with h | ⟨first, rest, h, hv | hv⟩
    · subst h; rfl
    · subst h; simp [ProcessListWidget.GetSelectedPid, hv]
    · subst h
      by_cases hf : first.isValid = true
      · simp [ProcessListWidget.GetSelectedPid, hf, hv]
      · simp [ProcessListWidget.GetSelectedPid, hf]
  · intro m first rest mapToSource hsel hsrc hrow
    simp only [ProcessListWidget.GetSelectedPid, hsel, hsrc, hget m _ (Or.inr hrow)]
    rfl

/-- Witness of C4, amended: a selection without a source index gives 0; row 3 of the
three-row example snapshot is an error, also through `GetSelectedPid()`. -/
theorem C4_boundary_results_witness :
    ProcessListWidget.GetSelectedPid [(⟨0, 0, true⟩ : QModelIndex)] mapToNothing twoRows
        = .ok 0 ∧
      (ProcessListModel.mk exampleSnapshot).getRow 3 = .error .OutOfRange ∧
      ProcessListWidget.GetSelectedPid [(⟨2, 0, true⟩ : QModelIndex)] shiftByOne
        (ProcessListModel.mk exampleSnapshot).getRow = .error .OutOfRange :=
  ⟨C4_boundary_results.1 _ mapToNothing twoRows
      (Or.inr ⟨⟨0, 0, true⟩, [], rfl, Or.inr (by decide)⟩),
    C4_boundary_results.2.1 (ProcessListModel.mk exampleSnapshot) 3 (Or.inr (by decide)),
    C4_boundary_results.2.2 (ProcessListModel.mk exampleSnapshot) ⟨2, 0, true⟩ [] shiftByOne
      (by decide) (by decide) (by decide)⟩

/-! ## Sorting -/

theorem insertSorted_perm {α : Type} (le : α → α → Bool) (a : α) (l : List α) :
    (insertSorted le a l).Perm (a :: l) := by
  induction l with
  | nil => exact List.Perm.refl _
  | cons b l ih =>
    unfold insertSorted
    split
    · exact List.Perm.refl _
    · exact (List.Perm.cons b ih).trans (List.Perm.swap a b l)

theorem stableSort_perm {α : Type} (le : α → α → Bool) (l : List α) :
    (stableSort le l).Perm l := by
  induction l with
  | nil => exact List.Perm.refl _
  | cons a l ih =>
    unfold stableSort
    exact (insertSorted_perm le a _).trans (List.Perm.cons a ih)

theorem insertSorted_pairwise {α : Type} (le : α → α → Bool)
    (htotal : ∀ a b, le a b = true ∨ le b a = true)
    (htrans : ∀ a b c, le a b = true → le b c = true → le a c = true)
    (a : α) (l : List α) (h : l.Pairwise (fun x y => le x y = true)) :
    (insertSorted le a l).Pairwise (fun x y => le x y = true) := by
  induction l with
  | nil => simp [insertSorted]
  | cons b l ih =>
    have hb := List.pairwise_cons.mp h
    unfold insertSorted
    split
    · rename_i hab
      refine List.pairwise_cons.mpr ⟨?_, h⟩
      intro c hc
      rcases List.mem_cons.mp hc with hc | hc
      · rw [hc]; exact hab
      · exact htrans a b c hab (hb.1 c hc)
    · rename_i hab
      have hba : le b a = true := by
        rcases htotal a b with h1 | h1
        · exact absurd h1 hab
        · exact h1
      refine List.pairwise_cons.mpr ⟨?_, ih hb.2⟩
      intro c hc
      rcases List.mem_cons.mp ((insertSorted_perm le a l).subset hc) with hc | hc
      · rw [hc]; exact hba
      · exact hb.1 c hc

theorem stableSort_pairwise {α : Type} (le : α → α → Bool)
    (htotal : ∀ a b, le a b = true ∨ le b a = true)
    (htrans : ∀ a b c, le a b = true → le b c = true → le a c = true) (l : List α) :
    (stableSort le l).Pairwise (fun x y => le x y = true) := by
  induction l with
  | nil => simp [stableSort]
  | cons a l ih =>
    unfold stableSort
    exact insertSorted_pairwise le htotal htrans a _ ih

theorem textLt_irrefl (x : String) : textLt x x = false := by
  unfold textLt
  exact decide_eq_false (lt_irrefl x.data)

theorem rowLe_pid_ascending (a b : ProcessItem) :
    ProcessListModel.rowLe .PidColumn .AscendingOrder a b = true ↔ a.pid ≤ b.pid := by
  unfold ProcessListModel.rowLe ProcessListModel.compareRows ProcessListModel.compareColumn
  rcases lt_trichotomy a.pid b.pid with h | h | h
  · have hc : compare a.pid b.pid = .lt := compare_lt_iff_lt.mpr h
    simp only [hc]
    exact ⟨fun _ => Nat.le_of_lt h, fun _ => by decide⟩
  · have hc : compare a.pid b.pid = .eq := compare_eq_iff_eq.mpr h
    have ht : ProcessListModel.cellText a .PidColumn = ProcessListModel.cellText b .PidColumn := by
      simp [ProcessListModel.cellText, h]
    simp only [hc, ht, textLt_irrefl]
    exact ⟨fun _ => Nat.le_of_eq h, fun _ => by decide⟩
  · have hc : compare a.pid b.pid = .gt := compare_gt_iff_gt.mpr h
    simp only [hc]
    exact ⟨fun hf => absurd hf (by decide), fun hf => absurd hf (Nat.not_le_of_gt h)⟩

/-- C5: for every process snapshot, `ProcessListModel::sort` on the pid column in ascending
order leaves the rows in non-decreasing numeric pid order and is a permutation of the
snapshot; the snapshot [(10,"a"), (2,"b"), (30,"c")] comes out in pid order [2, 10, 30]. -/
theorem C5_sort_pid_ascending :
    (∀ m : ProcessListModel,
        ((m.sort .PidColumn .AscendingOrder).m_items.map ProcessItem.pid).Pairwise (· ≤ ·) ∧
        (m.sort .PidColumn .AscendingOrder).m_items.Perm m.m_items) ∧
      ((ProcessListModel.mk exampleSnapshot).sort .PidColumn .AscendingOrder).m_items.map
        ProcessItem.pid = [2, 10, 30] := by
  refine ⟨fun m => ⟨?_, stableSort_perm _ _⟩, by decide⟩
  have hp := stableSort_pairwise (ProcessListModel.rowLe .PidColumn .AscendingOrder)
    (fun a b => by
      rw [rowLe_pid_ascending, rowLe_pid_ascending]
      exact Nat.le_total _ _)
    (fun a b c => by
      rw [rowLe_pid_ascending, rowLe_pid_ascending, rowLe_pid_ascending]
      exact Nat.le_trans) m.m_items
  rw [List.pairwise_map]
  exact hp.imp (fun {a b} h => (rowLe_pid_ascending a b).mp h)

/-! ## Filtering -/

theorem containsSubstring_nil (hay : List Char) : containsSubstring [] hay = true := by
  cases hay <;> simp [containsSubstring]

theorem filterMap_get?_range {α : Type} (l : List α) :
    (List.range l.length).filterMap (fun i => l.get? i) = l := by
  induction l with
  | nil => rfl
  | cons a l ih =>
    rw [List.length_cons, List.range_succ_eq_map, List.filterMap_cons, List.filterMap_map]
    simpa [Function.comp_def] using ih

theorem accepts_of_empty_filter (f : ProcessListFilterProxyModel) (hf : f.filterText = "")
    (item : ProcessItem) : f.accepts item = true := by
  unfold ProcessListFilterProxyModel.accepts
  rw [hf]
  exact containsSubstring_nil _

/-- C6: when the filter string is empty, `filterAcceptsRow` accepts every source row, and the
visible rows are the whole snapshot, in its order. -/
theorem C6_empty_filter_accepts_all (f : ProcessListFilterProxyModel)
    (source : ProcessListModel) (hf : f.filterText = "") :
    (∀ (sourceRow : Int) (sourceParent : QModelIndex),
        0 ≤ sourceRow → sourceRow < (source.m_items.length : Int) →
        f.filterAcceptsRow source sourceRow sourceParent = true) ∧
      f.visibleRows source = source.m_items := by
  have hacc : ∀ (sourceRow : Int) (sourceParent : QModelIndex),
      0 ≤ sourceRow → sourceRow < (source.m_items.length : Int) →
      f.filterAcceptsRow source sourceRow sourceParent = true := by
    intro sourceRow sourceParent h0 h1
    unfold ProcessListFilterProxyModel.filterAcceptsRow
    rw [if_pos h0]
    have hlt : sourceRow.toNat < source.m_items.length := by omega
    rw [List.get?_eq_get hlt]
    exact accepts_of_empty_filter f hf _
  refine ⟨hacc, ?_⟩
  unfold ProcessListFilterProxyModel.visibleRows
  have hcongr : ∀ i ∈ List.range source.m_items.length,
      (fun (i : Nat) =>
        if f.filterAcceptsRow source (Int.ofNat i) QModelIndex.invalid then
          source.m_items.get? i
        else none) i = (fun i => source.m_items.get? i) i := by
    intro i hi
    have hlt : i < source.m_items.length := List.mem_range.mp hi
    have h := hacc (Int.ofNat i) QModelIndex.invalid (Int.ofNat_nonneg i)
      (Int.ofNat_lt.mpr hlt)
    simp only [h, if_true]
  rw [List.filterMap_congr hcongr]
  exact filterMap_get?_range _

/-- Witness of C6: with the empty filter the example snapshot is visible whole. -/
theorem C6_empty_filter_accepts_all_witness :
    (∀ (sourceRow : Int) (sourceParent : QModelIndex),
        0 ≤ sourceRow → sourceRow < ((ProcessListModel.mk exampleSnapshot).m_items.length : Int) →
        (ProcessListFilterProxyModel.mk "" .ProcessNameColumn).filterAcceptsRow
          (ProcessListModel.mk exampleSnapshot) sourceRow sourceParent = true) ∧
      (ProcessListFilterProxyModel.mk "" .ProcessNameColumn).visibleRows
        (ProcessListModel.mk exampleSnapshot) = exampleSnapshot :=
  C6_empty_filter_accepts_all ⟨"", .ProcessNameColumn⟩ ⟨exampleSnapshot⟩ rfl

/-! ## Row values -/

theorem apply_remoteHost (s : DebugServerSettingsDialog)
    (addressText portText platformText : String) :
    (s.apply addressText portText platformText).remoteHost = addressText := by
  unfold DebugServerSettingsDialog.apply
  by_cases hp : platformText = "" <;>
    simp [hp, DebugServerSettingsDialog.accept, DebugServerSettingsDialog.StoreMetadata,
      DebugServerSettingsDialog.SetAdapterProperty, DebugServerSettingsDialog.SetRemotePort,
      DebugServerSettingsDialog.SetRemoteHost]

theorem apply_remotePort (s : DebugServerSettingsDialog)
    (addressText portText platformText : String) :
    (s.apply addressText portText platformText).remotePort = parsePort portText := by
  unfold DebugServerSettingsDialog.apply
  by_cases hp : platformText = "" <;>
    simp [hp, DebugServerSettingsDialog.accept, DebugServerSettingsDialog.StoreMetadata,
      DebugServerSettingsDialog.SetAdapterProperty, DebugServerSettingsDialog.SetRemotePort,
      DebugServerSettingsDialog.SetRemoteHost]

theorem apply_result (s : DebugServerSettingsDialog)
    (addressText portText platformText : String) :
    (s.apply addressText portText platformText).result = some DialogCode.Accepted := by
  unfold DebugServerSettingsDialog.apply
  by_cases hp : platformText = "" <;>
    simp [hp, DebugServerSettingsDialog.accept]

theorem apply_stored_host (s : DebugServerSettingsDialog)
    (addressText portText platformText : String) :
    (s.apply addressText portText platformText).storedMetadata "debugger.remote_host"
      = some (Metadata.string addressText) := by
  unfold DebugServerSettingsDialog.apply
  by_cases hp : platformText = "" <;>
    simp [hp, DebugServerSettingsDialog.accept, DebugServerSettingsDialog.StoreMetadata,
      DebugServerSettingsDialog.SetAdapterProperty, DebugServerSettingsDialog.SetRemotePort,
      DebugServerSettingsDialog.SetRemoteHost, storeAt]

theorem apply_stored_port (s : DebugServerSettingsDialog)
    (addressText portText platformText : String) :
    (s.apply addressText portText platformText).storedMetadata "debugger.remote_port"
      = some (Metadata.unsignedInteger (parsePort portText)) := by
  unfold DebugServerSettingsDialog.apply
  by_cases hp : platformText = "" <;>
    simp [hp, DebugServerSettingsDialog.accept, DebugServerSettingsDialog.StoreMetadata,
      DebugServerSettingsDialog.SetAdapterProperty, DebugServerSettingsDialog.SetRemotePort,
      DebugServerSettingsDialog.SetRemoteHost, storeAt]

theorem parsePort_of_error (portText : String) (e : StdException)
    (h : stoull portText = .error e) : parsePort portText = 31337 := by
  unfold parsePort
  rw [h]

theorem parsePort_of_ok (portText : String) (n : Nat)
    (h : stoull portText = .ok n) : parsePort portText = n := by
  unfold parsePort
  rw [h]

/-- C8: for every port text on which `std::stoull` throws, `apply()` completes and accepts
the dialog, the controller's remote port is 31337 and 31337 is stored under
"debugger.remote_port". -/
theorem C8_unparseable_port_defaults (s : DebugServerSettingsDialog)
    (addressText portText platformText : String) (e : StdException)
    (h : stoull portText = .error e) :
    (s.apply addressText portText platformText).result = some DialogCode.Accepted ∧
      (s.apply addressText portText platformText).remotePort = 31337 ∧
      (s.apply addressText portText platformText).storedMetadata "debugger.remote_port"
        = some (Metadata.unsignedInteger 31337) := by
  refine ⟨apply_result s _ _ _, ?_, ?_⟩
  · rw [apply_remotePort, parsePort_of_error portText e h]
  · rw [apply_stored_port, parsePort_of_error portText e h]

/-- Witness of C8: the empty text, a text without a leading number and a number above
`2^64 - 1` each leave port 31337 in the controller. -/
theorem C8_unparseable_port_defaults_witness :
    (stoull "" = .error .invalid_argument ∧
        (openedDialog.apply "10.0.0.1" "" "linux").remotePort = 31337) ∧
      (stoull "port 80" = .error .invalid_argument ∧
        (openedDialog.apply "10.0.0.1" "port 80" "linux").remotePort = 31337) ∧
      (stoull "18446744073709551616" = .error .out_of_range ∧
        (openedDialog.apply "10.0.0.1" "18446744073709551616" "linux").remotePort = 31337) :=
  ⟨⟨by decide, (C8_unparseable_port_defaults openedDialog "10.0.0.1" "" "linux"
      .invalid_argument (by decide)).2.1⟩,
    ⟨by decide, (C8_unparseable_port_defaults openedDialog "10.0.0.1" "port 80" "linux"
      .invalid_argument (by decide)).2.1⟩,
    ⟨by decide, (C8_unparseable_port_defaults openedDialog "10.0.0.1" "18446744073709551616"
      "linux" .out_of_range (by decide)).2.1⟩⟩

/-- C9: for every host text and port text, after `apply()` the value stored under
"debugger.remote_host" is the host given to `SetRemoteHost`, which is the entry text, and the
value stored under "debugger.remote_port" is the port given to `SetRemotePort`, which for a
parseable text is the parsed number; the text "70000" gives port 70000, above 65535. -/
theorem C9_metadata_matches_controller (s : DebugServerSettingsDialog)
    (addressText portText platformText : String) :
    (s.apply addressText portText platformText).remoteHost = addressText ∧
      (s.apply addressText portText platformText).storedMetadata "debugger.remote_host"
        = some (Metadata.string (s.apply addressText portText platformText).remoteHost) ∧
      (s.apply addressText portText platformText).storedMetadata "debugger.remote_port"
        = some (Metadata.unsignedInteger
            (s.apply addressText portText platformText).remotePort) ∧
      (∀ n : Nat, stoull portText = .ok n →
        (s.apply addressText portText platformText).remotePort = n) ∧
      (s.apply addressText "70000" platformText).remotePort = 70000 := by
  refine ⟨apply_remoteHost s _ _ _, ?_, ?_, ?_, ?_⟩
  · rw [apply_stored_host, apply_remoteHost]
  · rw [apply_stored_port, apply_remotePort]
  · intro n hn
    rw [apply_remotePort, parsePort_of_ok portText n hn]
  · rw [apply_remotePort]
    decide

/-- Witness of C9: the text "8080" parses to 8080, which is then the controller's port and
the stored port of the opened dialog. -/
theorem C9_metadata_matches_controller_witness :
    (openedDialog.apply "10.0.0.1" "8080" "").remotePort = 8080 ∧
      (openedDialog.apply "10.0.0.1" "8080" "").storedMetadata "debugger.remote_port"
        = some (Metadata.unsignedInteger (openedDialog.apply "10.0.0.1" "8080" "").remotePort) :=
  ⟨(C9_metadata_matches_controller openedDialog "10.0.0.1" "8080" "").2.2.2.1 8080 (by decide),
    (C9_metadata_matches_controller openedDialog "10.0.0.1" "8080" "").2.2.1⟩

/-- C10: when the platform text is empty, `apply()` leaves the adapter properties and the
stored metadata "debugger.platform" as they were while host and port are set and stored; when
it is not empty, the adapter property "current_platform" and the stored metadata
"debugger.platform" are both that text. -/
theorem C10_platform_only_when_nonempty (s : DebugServerSettingsDialog)
    (addressText portText platformText : String) :
    (platformText = "" →
        (s.apply addressText portText platformText).adapterProperty = s.adapterProperty ∧
        (s.apply addressText portText platformText).storedMetadata "debugger.platform"
          = s.storedMetadata "debugger.platform" ∧
        (s.apply addressText portText platformText).remoteHost = addressText ∧
        (s.apply addressText portText platformText).remotePort = parsePort portText ∧
        (s.apply addressText portText platformText).storedMetadata "debugger.remote_host"
          = some (Metadata.string addressText) ∧
        (s.apply addressText portText platformText).storedMetadata "debugger.remote_port"
          = some (Metadata.unsignedInteger (parsePort portText))) ∧
      (platformText ≠ "" →
        (s.apply addressText portText platformText).adapterProperty "current_platform"
          = some (Metadata.string platformText) ∧
        (s.apply addressText portText platformText).storedMetadata "debugger.platform"
          = some (Metadata.string platformText)) := by
  constructor
  · intro hp
    refine ⟨?_, ?_, apply_remoteHost s _ _ _, apply_remotePort s _ _ _,
      apply_stored_host s _ _ _, apply_stored_port s _ _ _⟩
    · simp [DebugServerSettingsDialog.apply, hp, DebugServerSettingsDialog.accept,
        DebugServerSettingsDialog.StoreMetadata, DebugServerSettingsDialog.SetRemotePort,
        DebugServerSettingsDialog.SetRemoteHost]
    · simp [DebugServerSettingsDialog.apply, hp, DebugServerSettingsDialog.accept,
        DebugServerSettingsDialog.StoreMetadata, DebugServerSettingsDialog.SetRemotePort,
        DebugServerSettingsDialog.SetRemoteHost, storeAt]
  · intro hp
    constructor <;>
      simp [DebugServerSettingsDialog.apply, hp, DebugServerSettingsDialog.accept,
        DebugServerSettingsDialog.StoreMetadata, DebugServerSettingsDialog.SetAdapterProperty,
        DebugServerSettingsDialog.SetRemotePort, DebugServerSettingsDialog.SetRemoteHost,
        storeAt]

/-- Witness of C10: on the opened dialog, an empty platform text keeps "linux" in both
places while the host becomes "10.0.0.1"; the text "windows" replaces it in both. -/
theorem C10_platform_only_when_nonempty_witness :
    ((openedDialog.apply "10.0.0.1" "80" "").adapterProperty "current_platform"
          = some (Metadata.string "linux") ∧
        (openedDialog.apply "10.0.0.1" "80" "").storedMetadata "debugger.platform"
          = some (Metadata.string "linux") ∧
        (openedDialog.apply "10.0.0.1" "80" "").remoteHost = "10.0.0.1") ∧
      ((openedDialog.apply "10.0.0.1" "80" "windows").adapterProperty "current_platform"
          = some (Metadata.string "windows") ∧
        (openedDialog.apply "10.0.0.1" "80" "windows").storedMetadata "debugger.platform"
          = some (Metadata.string "windows")) :=
  ⟨⟨by rw [((C10_platform_only_when_nonempty openedDialog "10.0.0.1" "80" "").1 rfl).1]; rfl,
      by rw [((C10_platform_only_when_nonempty openedDialog "10.0.0.1" "80" "").1 rfl).2.1]; rfl,
      ((C10_platform_only_when_nonempty openedDialog "10.0.0.1" "80" "").1 rfl).2.2.1⟩,
    (C10_platform_only_when_nonempty openedDialog "10.0.0.1" "80" "windows").2 (by decide)⟩

end Debugger
